import Mathlib

/-!
# The front-end bundler configuration of `frontend/vite.config.js`

The source file exports one record, built by `defineConfig` from an object
literal.  This development embeds that literal as a value of `JsVal`, together
with the two notions the bundler applies to it: how an exported configuration
is loaded (a record is taken as it is, a function is called with the
command and mode), and how a relative path of the record is resolved against
the project root.
-/

namespace ViteConfig

/-! ## JavaScript values -/

/-- A JavaScript value as it can occur in the configuration literal. -/
inductive JsVal where
  | str (s : String)
  | num (n : Int)
  | bool (b : Bool)
  | arr (items : List JsVal)
  | obj (fields : List (String × JsVal))

/-- Property read `v[k]`.  In an object literal a later field with the same key
overrides an earlier one, so the last occurrence is the one found. -/
def JsVal.getField (k : String) : JsVal → Option JsVal
  | .obj fields => fields.reverse.lookup k
  | _ => none

/-- Nested property read `v.k₁.k₂...`. -/
def JsVal.getPath : List String → JsVal → Option JsVal
  | [], v => some v
  | k :: ks, v => (v.getField k).bind (JsVal.getPath ks)

/-- Own keys (`Object.keys`) of an object literal, in order of first occurrence. -/
def JsVal.keys : JsVal → List String
  | .obj fields => (fields.map Prod.fst).eraseDups
  | _ => []

/-- The string held by a value, if it is a string. -/
def JsVal.asStr : JsVal → Option String
  | .str s => some s
  | _ => none

/-! ## The source file -/

/-- The object literal of `vite.config.js`, lines 4 to 20.  `svelte` is the
function imported from `@sveltejs/vite-plugin-svelte`; the literal calls it with
no argument. -/
def configLiteral (svelte : List JsVal → JsVal) : JsVal :=
  .obj [
    ("plugins", .arr [svelte []]),
    ("server", .obj [
      ("host", .str "localhost"),
      ("port", .num 5173),
      ("strictPort", .bool true),
      ("origin", .str "http://localhost:5173")]),
    ("build", .obj [
      ("outDir", .str "../static/frontend"),
      ("emptyOutDir", .bool true),
      ("manifest", .bool true),
      ("rollupOptions", .obj [
        ("input", .str "./src/main.js")])])]

/-- The bundler command a configuration is loaded for. -/
inductive Command where
  | serve
  | build
deriving DecidableEq, Repr

/-- What the bundler hands to a configuration that is a function: the command,
the mode and the process environment. -/
structure ConfigEnv where
  command : Command
  mode : String
  env : String → Option String

/-- A configuration export is either a record or a function of the
environment the bundler is started in. -/
inductive UserConfigExport where
  | record (c : JsVal)
  | fn (f : ConfigEnv → JsVal)

/-- The helper `defineConfig` imported from `vite`: it returns its argument. -/
def defineConfig (c : UserConfigExport) : UserConfigExport := c

/-- The default export of `vite.config.js`. -/
def exported (svelte : List JsVal → JsVal) : UserConfigExport :=
  defineConfig (.record (configLiteral svelte))

/-- Loading an export: a function is called with the environment, a record is
used as it stands. -/
def loadConfig (e : UserConfigExport) (env : ConfigEnv) : JsVal :=
  match e with
  | .record c => c
  | .fn f => f env

/-- The record the bundler works with after loading the default export. -/
def config (svelte : List JsVal → JsVal) (env : ConfigEnv) : JsVal :=
  loadConfig (exported svelte) env

/-! ## Path resolution -/

/-- Cut a character sequence at every `/`. -/
def segments : List Char → List (List Char)
  | [] => [[]]
  | c :: cs =>
    if c = '/' then [] :: segments cs
    else
      match segments cs with
      | [] => [[c]]
      | s :: rest => (c :: s) :: rest

/-- The segments of a path string. -/
def components (path : String) : List String :=
  (segments path.toList).map String.mk

/-- One step of normalisation: an empty segment or `.` is skipped, `..` leaves
the last directory (and stays at the file-system root), any other segment is
entered. -/
def normalizeStep (stack : List String) (seg : String) : List String :=
  if seg = "" ∨ seg = "." then stack
  else if seg = ".." then stack.dropLast
  else stack ++ [seg]

/-- Normalise a sequence of segments, read from the file-system root. -/
def normalize (segs : List String) : List String :=
  segs.foldl normalizeStep []

/-- Modelled from the spec: the bundler's resolution of a configured path
against the project root, which the repository does not contain.  This follows POSIX
`path.resolve(root, rel)` for an absolute `root`: an absolute `rel` stands alone,
otherwise `rel` is appended to `root`; the result is normalised and given as
the components of an absolute path. -/
def resolve (root rel : String) : List String :=
  if rel.toList.head? = some '/' then normalize (components rel)
  else normalize (components (root ++ "/" ++ rel))

/-- The components of the project root itself. -/
def rootDir (root : String) : List String :=
  normalize (components root)

/-- The output directory of a configuration, resolved against the root. -/
def resolvedOutDir (cfg : JsVal) (root : String) : Option (List String) :=
  ((cfg.getPath ["build", "outDir"]).bind JsVal.asStr).map (resolve root)

/-- The bundling entry point of a configuration, resolved against the root. -/
def resolvedInput (cfg : JsVal) (root : String) : Option (List String) :=
  ((cfg.getPath ["build", "rollupOptions", "input"]).bind JsVal.asStr).map (resolve root)

/-- A stand-in for the framework integration, used where a concrete value is
needed: it returns an empty descriptor. -/
def emptyPlugin (_ : List JsVal) : JsVal := .obj []

/-- An environment for the development server. -/
def devEnv : ConfigEnv := ⟨.serve, "development", fun _ => none⟩

/-- An environment for a production build. -/
def prodEnv : ConfigEnv := ⟨.build, "production", fun _ => none⟩

/-- The entry points the bundler starts from, for the three shapes its `input`
option accepts: one path, a list of paths, or a map from names to paths. -/
def entryPoints : JsVal → List String
  | .str s => [s]
  | .arr items => items.filterMap JsVal.asStr
  | .obj fields => fields.filterMap fun f => f.2.asStr
  | _ => []

/-! ## Lemmas on path resolution -/

theorem segments_ne_nil (cs : List Char) : segments cs ≠ [] := by
  cases cs with
  | nil => simp [segments]
  | cons c cs =>
    unfold segments
    split
    · simp
    · split <;> simp

theorem segments_append_slash (a b : List Char) :
    segments (a ++ '/' :: b) = segments a ++ segments b := by
  induction a with
  | nil => simp [segments]
  | cons c a ih =>
    by_cases hc : c = '/'
    · simp [segments, hc, ih]
    · have hne := segments_ne_nil a
      cases hs : segments a with
      | nil => exact absurd hs hne
      | cons s rest => simp [segments, hc, ih, hs]

theorem components_join (root rel : String) :
    components (root ++ "/" ++ rel) = components root ++ components rel := by
  have h : (root ++ "/" ++ rel).toList = root.toList ++ '/' :: rel.toList := by
    simp [String.toList, String.data_append]
  simp [components, h, segments_append_slash]

theorem normalize_append (a b : List String) :
    normalize (a ++ b) = b.foldl normalizeStep (normalize a) := by
  simp [normalize, List.foldl_append]

theorem resolve_relative (root rel : String) (h : rel.toList.head? ≠ some '/') :
    resolve root rel = (components rel).foldl normalizeStep (rootDir root) := by
  unfold resolve
  rw [if_neg h, components_join, normalize_append]
  rfl

theorem resolve_outDir_literal (root : String) (p : List String) (name : String)
    (h : rootDir root = p ++ [name]) :
    resolve root "../static/frontend" = p ++ ["static", "frontend"] := by
  rw [resolve_relative root _ (by decide), h]
  have hc : components "../static/frontend" = ["..", "static", "frontend"] := by decide
  rw [hc]
  simp [normalizeStep]

theorem resolve_input_literal (root : String) :
    resolve root "./src/main.js" = rootDir root ++ ["src", "main.js"] := by
  rw [resolve_relative root _ (by decide)]
  have hc : components "./src/main.js" = [".", "src", "main.js"] := by decide
  rw [hc]
  simp [normalizeStep]

theorem resolvedOutDir_config (svelte : List JsVal → JsVal) (env : ConfigEnv) (root : String) :
    resolvedOutDir (config svelte env) root = some (resolve root "../static/frontend") := rfl

theorem resolvedInput_config (svelte : List JsVal → JsVal) (env : ConfigEnv) (root : String) :
    resolvedInput (config svelte env) root = some (resolve root "./src/main.js") := rfl

theorem rootDir_sample : rootDir "/srv/app/frontend" = ["srv", "app"] ++ ["frontend"] := by
  decide

/-- Loading does depend on the environment when the export is a function, so
constancy of a loaded configuration is a property of the export. -/
theorem loadConfig_fn_can_differ :
    ∃ f : ConfigEnv → JsVal, loadConfig (.fn f) devEnv ≠ loadConfig (.fn f) prodEnv := by
  refine ⟨fun e => .str e.mode, ?_⟩
  simp [loadConfig, devEnv, prodEnv]

/-! ## The development server -/

/-- C1: the development-server section of the exported configuration has host
"localhost", port 5173 as a number, and strictPort equal to the boolean true. -/
theorem server_binds_localhost_5173 (svelte : List JsVal → JsVal) (env : ConfigEnv) :
    (config svelte env).getPath ["server", "host"] = some (.str "localhost") ∧
    (config svelte env).getPath ["server", "port"] = some (.num 5173) ∧
    (config svelte env).getPath ["server", "strictPort"] = some (.bool true) :=
  ⟨rfl, rfl, rfl⟩

/-- C2: server.origin is the string "http://localhost:5173"; it is "http://"
followed by server.host, a colon and the decimal form of server.port, and what
follows the scheme holds no slash, so there is no trailing slash and no path. -/
theorem server_origin_consistent (svelte : List JsVal → JsVal) (env : ConfigEnv) :
    ∃ (host : String) (port : Int) (origin : String),
      (config svelte env).getPath ["server", "host"] = some (.str host) ∧
      (config svelte env).getPath ["server", "port"] = some (.num port) ∧
      (config svelte env).getPath ["server", "origin"] = some (.str origin) ∧
      origin = "http://localhost:5173" ∧
      origin = "http://" ++ host ++ ":" ++ toString port ∧
      '/' ∉ (host ++ ":" ++ toString port).toList :=
  ⟨"localhost", 5173, "http://localhost:5173", rfl, rfl, rfl, rfl, by decide, by decide⟩

/-! ## The production build -/

/-- C3: for a project root whose normalised path is p/name, build.outDir is the
string "../static/frontend" and resolves to p/static/frontend, one level above
the project root. -/
theorem outDir_resolves_beside_root (svelte : List JsVal → JsVal) (env : ConfigEnv)
    (root : String) (p : List String) (name : String) (h : rootDir root = p ++ [name]) :
    (config svelte env).getPath ["build", "outDir"] = some (.str "../static/frontend") ∧
    resolvedOutDir (config svelte env) root = some (p ++ ["static", "frontend"]) := by
  refine ⟨rfl, ?_⟩
  rw [resolvedOutDir_config, resolve_outDir_literal root p name h]

theorem outDir_resolves_beside_root_witness :
    rootDir "/srv/app/frontend" = ["srv", "app"] ++ ["frontend"] ∧
    (config emptyPlugin prodEnv).getPath ["build", "outDir"] = some (.str "../static/frontend") ∧
    resolvedOutDir (config emptyPlugin prodEnv) "/srv/app/frontend" =
      some (["srv", "app"] ++ ["static", "frontend"]) :=
  ⟨rootDir_sample,
    outDir_resolves_beside_root emptyPlugin prodEnv "/srv/app/frontend" ["srv", "app"] "frontend"
      rootDir_sample⟩

/-- C4: in the build section emptyOutDir and manifest are both the boolean
true. -/
theorem build_empties_and_emits_manifest (svelte : List JsVal → JsVal) (env : ConfigEnv) :
    (config svelte env).getPath ["build", "emptyOutDir"] = some (.bool true) ∧
    (config svelte env).getPath ["build", "manifest"] = some (.bool true) :=
  ⟨rfl, rfl⟩

/-- C5: build.rollupOptions.input is the single string "./src/main.js", the
bundle has exactly that one entry point, and against every project root it
resolves to src/main.js under the root. -/
theorem input_is_single_main_js (svelte : List JsVal → JsVal) (env : ConfigEnv)
    (root : String) :
    (config svelte env).getPath ["build", "rollupOptions", "input"] =
      some (.str "./src/main.js") ∧
    ((config svelte env).getPath ["build", "rollupOptions", "input"]).map entryPoints =
      some ["./src/main.js"] ∧
    resolvedInput (config svelte env) root = some (rootDir root ++ ["src", "main.js"]) := by
  refine ⟨rfl, rfl, ?_⟩
  rw [resolvedInput_config, resolve_input_literal]

/-! ## Plugins, constancy and shape -/

/-- C6: the plugins field is a sequence of length one whose only element is the
value returned by svelte called with no argument. -/
theorem plugins_is_single_svelte (svelte : List JsVal → JsVal) (env : ConfigEnv) :
    ∃ items : List JsVal,
      (config svelte env).getPath ["plugins"] = some (.arr items) ∧
      items.length = 1 ∧ items = [svelte []] :=
  ⟨[svelte []], rfl, rfl, rfl⟩

/-- C7: the export is a record and not a function of the environment, so any
two loads, under any commands, modes and environment variables, give the same
record, namely the literal of the source file. -/
theorem config_is_constant (svelte : List JsVal → JsVal) (e₁ e₂ : ConfigEnv) :
    exported svelte = UserConfigExport.record (configLiteral svelte) ∧
    config svelte e₁ = configLiteral svelte ∧
    config svelte e₁ = config svelte e₂ :=
  ⟨rfl, rfl, rfl⟩

/-- C8: the top-level keys are exactly plugins, server and build; server has
exactly host, port, strictPort and origin; build has exactly outDir,
emptyOutDir, manifest and rollupOptions; rollupOptions has exactly input. -/
theorem config_has_exactly_listed_fields (svelte : List JsVal → JsVal) (env : ConfigEnv) :
    (config svelte env).keys = ["plugins", "server", "build"] ∧
    ((config svelte env).getPath ["server"]).map JsVal.keys =
      some ["host", "port", "strictPort", "origin"] ∧
    ((config svelte env).getPath ["build"]).map JsVal.keys =
      some ["outDir", "emptyOutDir", "manifest", "rollupOptions"] ∧
    ((config svelte env).getPath ["build", "rollupOptions"]).map JsVal.keys =
      some ["input"] :=
  ⟨rfl, rfl, rfl, rfl⟩

/-! ## Emptying the output directory -/

/-- C9, as stated, fails for a project root named static: with the root
/srv/static the output directory resolves to /srv/static/frontend, which lies
inside the root, so emptying it removes files under the project root. -/
theorem outDir_inside_root_named_static :
    rootDir "/srv/static" = ["srv"] ++ ["static"] ∧
    (config emptyPlugin prodEnv).getPath ["build", "emptyOutDir"] = some (.bool true) ∧
    resolvedOutDir (config emptyPlugin prodEnv) "/srv/static" =
      some ["srv", "static", "frontend"] ∧
    rootDir "/srv/static" <+: ["srv", "static", "frontend"] ∧
    ¬ (∀ out, resolvedOutDir (config emptyPlugin prodEnv) "/srv/static" = some out →
        ¬ rootDir "/srv/static" <+: out) := by
  have hr : rootDir "/srv/static" = ["srv"] ++ ["static"] := by decide
  have ho : resolvedOutDir (config emptyPlugin prodEnv) "/srv/static" =
      some ["srv", "static", "frontend"] := by decide
  have hp : rootDir "/srv/static" <+: ["srv", "static", "frontend"] := by
    rw [hr]; exact ⟨["frontend"], rfl⟩
  exact ⟨hr, rfl, ho, hp, fun hall => hall _ ho hp⟩

/-- C9, amended: for a project root whose normalised path is p/name with name
other than static, the resolved output directory is neither the root nor inside
it, the resolved entry point is not inside the output directory, and no path at
or under the root is at or under the output directory, so emptying the output
directory removes nothing of the project root; for the root "/" the output
directory does lie inside the root. -/
theorem emptyOutDir_spares_project_root (svelte : List JsVal → JsVal) (env : ConfigEnv)
    (root : String) (p : List String) (name : String)
    (h : rootDir root = p ++ [name]) (hname : name ≠ "static") :
    ∃ out entry : List String,
      resolvedOutDir (config svelte env) root = some out ∧
      resolvedInput (config svelte env) root = some entry ∧
      (config svelte env).getPath ["build", "emptyOutDir"] = some (.bool true) ∧
      out ≠ rootDir root ∧
      ¬ rootDir root <+: out ∧
      ¬ out <+: entry ∧
      (∀ f : List String, rootDir root <+: f → ¬ out <+: f) ∧
      (∃ out₀, resolvedOutDir (config svelte env) "/" = some out₀ ∧ rootDir "/" <+: out₀) := by
  have hnot : ¬ rootDir root <+: p ++ ["static", "frontend"] := by
    rw [h, List.prefix_append_right_inj, List.cons_prefix_cons]
    exact fun hc => hname hc.1
  have hfile : ∀ f : List String, rootDir root <+: f → ¬ p ++ ["static", "frontend"] <+: f := by
    intro f hr ho
    rcases List.prefix_or_prefix_of_prefix hr ho with h1 | h1
    · exact hnot h1
    · have hlen := h1.length_le
      rw [h] at hlen
      simp at hlen
  refine ⟨p ++ ["static", "frontend"], rootDir root ++ ["src", "main.js"], ?_, ?_, rfl, ?_,
    hnot, ?_, hfile, ⟨["static", "frontend"], ?_, by decide⟩⟩
  · rw [resolvedOutDir_config, resolve_outDir_literal root p name h]
  · rw [resolvedInput_config, resolve_input_literal]
  · rw [h]; simp
  · exact hfile _ (List.prefix_append _ _)
  · rw [resolvedOutDir_config]; decide

theorem emptyOutDir_spares_project_root_witness :
    rootDir "/srv/app/frontend" = ["srv", "app"] ++ ["frontend"] ∧ "frontend" ≠ "static" ∧
    ∃ out entry : List String,
      resolvedOutDir (config emptyPlugin prodEnv) "/srv/app/frontend" = some out ∧
      resolvedInput (config emptyPlugin prodEnv) "/srv/app/frontend" = some entry ∧
      (config emptyPlugin prodEnv).getPath ["build", "emptyOutDir"] = some (.bool true) ∧
      out ≠ rootDir "/srv/app/frontend" ∧
      ¬ rootDir "/srv/app/frontend" <+: out ∧
      ¬ out <+: entry ∧
      (∀ f : List String, rootDir "/srv/app/frontend" <+: f → ¬ out <+: f) ∧
      (∃ out₀, resolvedOutDir (config emptyPlugin prodEnv) "/" = some out₀ ∧
        rootDir "/" <+: out₀) :=
  ⟨rootDir_sample, by decide,
    emptyOutDir_spares_project_root emptyPlugin prodEnv "/srv/app/frontend" ["srv", "app"]
      "frontend" rootDir_sample (by decide)⟩

end ViteConfig
